import Mathlib

/-!
# ELF header reader (`include/arm_thing/elf_reader.hpp`)

Shallow embedding of `arm_thing::ELF::Section_Header` and
`arm_thing::ELF::File_Header`, followed by theorems about field layout,
endian-aware decoding and enum classification.

Conventions of the embedding.

* A byte is a `Fin 256`; the header buffers are total maps from the index
  range of the `std::array` to bytes.
* A C++ function that may fail to produce a value returns `Except Fault _`.
  The faults are the ways the C++ code can leave the defined path.
* `File_Header::offset`, `size`, `read`, `read_loc`, `bit_class`,
  `multibyte_data`, `little_endian` and `bits_32` call each other in a cycle
  (`read` calls `size`, `size` calls `bits_32`, `bits_32` calls `bit_class`,
  `bit_class` calls `read`).  The cycle is embedded as one mutual block that
  recurses on a call-depth budget `fuel`: every call of a function of the
  block spends one unit.  Theorems are stated for every sufficiently large
  budget.
* A scoped enumeration is its underlying `int` together with named constants,
  so that `static_cast<E>(n)` is representable for every `n`.
-/

set_option autoImplicit false

namespace arm_thing.ELF

/-- Ways in which a call can fail to return a value. -/
inductive Fault where
  /-- The call-depth budget of the embedding is exhausted (never a C++ behaviour). -/
  | out_of_fuel
  /-- Control reaches the closing brace of a value-returning function. -/
  | no_return
  /-- Member `at` of `std::array` throws inside a `noexcept` function. -/
  | terminate
  /-- The subscript operator of `std::array` is applied past the end. -/
  | out_of_bounds
  /-- The argument of `assert` is false. -/
  | assertion_failed
  /-- The `static_assert` of `read_loc` rejects the instantiation. -/
  | ill_formed
deriving DecidableEq, Repr

deriving instance DecidableEq for Except

/-- The macro `assert(c)`. -/
def cassert (c : Bool) : Except Fault Unit :=
  if c then .ok () else .error .assertion_failed

/-- A string literal used as a condition: it decays to a pointer that is never null. -/
def literal_as_bool (_s : String) : Bool := true

/-- Conversion of an unsigned 64-bit value to `int` (the underlying type of a
scoped enumeration): reduction modulo `2^32` into the signed range. -/
def static_cast_int (v : Nat) : Int :=
  if v % 2 ^ 32 < 2 ^ 31 then ((v % 2 ^ 32 : Nat) : Int) else ((v % 2 ^ 32 : Nat) : Int) - 2 ^ 32

/-- Left shift of a `std::uint32_t`. -/
def shl32 (a k : Nat) : Nat := (a <<< k) % 2 ^ 32

/-- Left shift of a `std::uint64_t`. -/
def shl64 (a k : Nat) : Nat := (a <<< k) % 2 ^ 64

/-! ## Section_Header -/

/-- The struct `Section_Header`: the flag `bits_32` and the array `data` of `0x40` bytes. -/
structure Section_Header where
  bits_32 : Bool
  data : Fin 0x40 → Fin 256

namespace Section_Header

/-- The enumeration `Section_Header::Fields`. -/
inductive Fields where
  | sh_name | sh_type | sh_flags | sh_addr | sh_offset | sh_size | sh_link | sh_info
  | sh_addralign | sh_entsize
deriving DecidableEq, Repr

/-- The member `Section_Header::offset`. -/
def offset (s : Section_Header) (field : Fields) : Nat :=
  match field with
  | .sh_name => 0x00
  | .sh_type => 0x04
  | .sh_flags => 0x08
  | .sh_addr => if s.bits_32 then 0x0C else 0x10
  | .sh_offset => if s.bits_32 then 0x10 else 0x18
  | .sh_size => if s.bits_32 then 0x14 else 0x20
  | .sh_link => if s.bits_32 then 0x18 else 0x28
  | .sh_info => if s.bits_32 then 0x1C else 0x2C
  | .sh_addralign => if s.bits_32 then 0x20 else 0x30
  | .sh_entsize => if s.bits_32 then 0x24 else 0x38

/-- The member `Section_Header::size`. -/
def size (s : Section_Header) (field : Fields) : Nat :=
  match field with
  | .sh_name => 4
  | .sh_type => 4
  | .sh_flags => if s.bits_32 then 4 else 8
  | .sh_addr => if s.bits_32 then 4 else 8
  | .sh_offset => if s.bits_32 then 4 else 8
  | .sh_size => if s.bits_32 then 4 else 8
  | .sh_link => 4
  | .sh_info => 4
  | .sh_addralign => if s.bits_32 then 4 else 8
  | .sh_entsize => if s.bits_32 then 4 else 8

/-- The section-header table of section 6 of the specification: `(offset, width)`
of each field, in the 32-bit column when `b32` is true and in the 64-bit column
otherwise. -/
def published_layout (b32 : Bool) : Fields → Nat × Nat
  | .sh_name => (0x00, 4)
  | .sh_type => (0x04, 4)
  | .sh_flags => (0x08, if b32 then 4 else 8)
  | .sh_addr => (if b32 then 0x0C else 0x10, if b32 then 4 else 8)
  | .sh_offset => (if b32 then 0x10 else 0x18, if b32 then 4 else 8)
  | .sh_size => (if b32 then 0x14 else 0x20, if b32 then 4 else 8)
  | .sh_link => (if b32 then 0x18 else 0x28, 4)
  | .sh_info => (if b32 then 0x1C else 0x2C, 4)
  | .sh_addralign => (if b32 then 0x20 else 0x30, if b32 then 4 else 8)
  | .sh_entsize => (if b32 then 0x24 else 0x38, if b32 then 4 else 8)

end Section_Header

/-! ## File_Header -/

/-- The struct `File_Header`: the array `data` of 64 bytes. -/
structure File_Header where
  data : Fin 64 → Fin 256

namespace File_Header

/-- The enumeration `File_Header::Fields`. -/
inductive Fields where
  | ei_mag | ei_mag_0 | ei_mag_1 | ei_mag_2 | ei_mag_3 | ei_class | ei_data | ei_version
  | ei_osabi | ei_abiversion | ei_pad | e_type | e_machine | e_version | e_entry | e_phoff
  | e_shoff | e_flags | e_ehsize | e_phentsize | e_phnum | e_shentsize | e_shnum | e_shstrndx
deriving DecidableEq, Repr

/-- The enumeration `File_Header::Class`, as its underlying integer. -/
structure Class where
  val : Int
deriving DecidableEq, Repr

namespace Class
def bits_32 : Class := ⟨1⟩
def bits_64 : Class := ⟨2⟩
def Unknown : Class := ⟨3⟩
end Class

/-- The enumeration `File_Header::Data`, as its underlying integer. -/
structure Data where
  val : Int
deriving DecidableEq, Repr

namespace Data
def little_endian : Data := ⟨1⟩
def big_endian : Data := ⟨2⟩
def Unknown : Data := ⟨3⟩
end Data

/-- The enumeration `File_Header::OSABI`, as its underlying integer. -/
structure OSABI where
  val : Int
deriving DecidableEq, Repr

namespace OSABI
def System_V : OSABI := ⟨0x00⟩
def HP_UX : OSABI := ⟨0x01⟩
def NetBSD : OSABI := ⟨0x02⟩
def Linux : OSABI := ⟨0x03⟩
def GNU_Hurd : OSABI := ⟨0x04⟩
def Solaris : OSABI := ⟨0x06⟩
def AIX : OSABI := ⟨0x07⟩
def IRIX : OSABI := ⟨0x08⟩
def FreeBSD : OSABI := ⟨0x09⟩
def Tru64 : OSABI := ⟨0x0A⟩
def Novell_Modesto : OSABI := ⟨0x0B⟩
def OpenBSD : OSABI := ⟨0x0C⟩
def OpenVMS : OSABI := ⟨0x0D⟩
def NonStop_Kernel : OSABI := ⟨0x0E⟩
def AROS : OSABI := ⟨0x0F⟩
def Fenix_OS : OSABI := ⟨0x10⟩
def CloudABI : OSABI := ⟨0x11⟩
def Unknown : OSABI := ⟨0x12⟩
end OSABI

/-- The enumeration `File_Header::ObjectType`, as its underlying integer. -/
structure ObjectType where
  val : Int
deriving DecidableEq, Repr

namespace ObjectType
def ET_NONE : ObjectType := ⟨0x00⟩
def ET_REL : ObjectType := ⟨0x01⟩
def ET_EXEC : ObjectType := ⟨0x02⟩
def ET_DYN : ObjectType := ⟨0x03⟩
def ET_CORE : ObjectType := ⟨0x04⟩
def ET_LOOS : ObjectType := ⟨0xFE00⟩
def ET_HIOS : ObjectType := ⟨0xFEFF⟩
def ET_LOPROC : ObjectType := ⟨0xFF00⟩
def ET_HIPROC : ObjectType := ⟨0xFFFF⟩
def Unknown : ObjectType := ⟨0x10000⟩
end ObjectType

/-- The enumeration `File_Header::Machine`, as its underlying integer. -/
structure Machine where
  val : Int
deriving DecidableEq, Repr

namespace Machine
def Unknown : Machine := ⟨0x00⟩
def SPARC : Machine := ⟨0x02⟩
def x86 : Machine := ⟨0x03⟩
def MIPS : Machine := ⟨0x08⟩
def PowerPC : Machine := ⟨0x14⟩
def S390 : Machine := ⟨0x16⟩
def ARM : Machine := ⟨0x28⟩
def SuperH : Machine := ⟨0x2A⟩
def IA_64 : Machine := ⟨0x32⟩
def x86_64 : Machine := ⟨0x3E⟩
def AArch64 : Machine := ⟨0xB7⟩
def RISC_V : Machine := ⟨0xF3⟩
end Machine

/-- The subscript `data[loc]`. -/
def index (h : File_Header) (loc : Nat) : Except Fault Nat :=
  if hl : loc < 64 then .ok (h.data ⟨loc, hl⟩).val else .error .out_of_bounds

/-- The checked access `data.at(loc)` inside a `noexcept` member. -/
def checked_at (h : File_Header) (loc : Nat) : Except Fault Nat :=
  if hl : loc < 64 then .ok (h.data ⟨loc, hl⟩).val else .error .terminate

/-- The member template `File_Header::equal`: the first range is the list of
its elements, the second iterator is a position in `data`. -/
def equal (h : File_Header) : List Int → Nat → Except Fault Bool
  | [], _ => .ok true
  | a :: rest, begin2 => do
    let b ← h.index begin2
    if a ≠ (b : Int) then pure false else equal h rest (begin2 + 1)

/-- The member `File_Header::is_elf_file`. -/
def is_elf_file (h : File_Header) : Except Fault Bool :=
  let magic_number : List Int := [0x7F, 0x45, 0x4C, 0x46]
  h.equal magic_number 0

mutual

/-- The member `File_Header::offset`. -/
def offset : Nat → File_Header → Fields → Except Fault Nat
  | 0, _, _ => .error .out_of_fuel
  | fuel + 1, h, field =>
    match field with
    | .ei_mag => pure 0x00
    | .ei_mag_0 => pure 0x00
    | .ei_mag_1 => pure 0x01
    | .ei_mag_2 => pure 0x02
    | .ei_mag_3 => pure 0x03
    | .ei_class => pure 0x04
    | .ei_data => pure 0x05
    | .ei_version => pure 0x06
    | .ei_osabi => pure 0x07
    | .ei_abiversion => pure 0x08
    | .ei_pad => pure 0x09
    | .e_type => pure 0x10
    | .e_machine => pure 0x12
    | .e_version => pure 0x14
    | .e_entry => pure 0x18
    | .e_phoff => do let b ← bits_32 fuel h; pure (if b then 0x1C else 0x20)
    | .e_shoff => do let b ← bits_32 fuel h; pure (if b then 0x20 else 0x28)
    | .e_flags => do let b ← bits_32 fuel h; pure (if b then 0x24 else 0x30)
    | .e_ehsize => do let b ← bits_32 fuel h; pure (if b then 0x28 else 0x34)
    | .e_phentsize => do let b ← bits_32 fuel h; pure (if b then 0x2A else 0x36)
    | .e_phnum => do let b ← bits_32 fuel h; pure (if b then 0x2C else 0x38)
    | .e_shentsize => do let b ← bits_32 fuel h; pure (if b then 0x2E else 0x3A)
    | .e_shnum => do let b ← bits_32 fuel h; pure (if b then 0x30 else 0x3C)
    | .e_shstrndx => do let b ← bits_32 fuel h; pure (if b then 0x32 else 0x3E)

/-- The member `File_Header::size` taking a field. -/
def size : Nat → File_Header → Fields → Except Fault Nat
  | 0, _, _ => .error .out_of_fuel
  | fuel + 1, h, field =>
    match field with
    | .ei_mag => pure 4
    | .ei_mag_0 => pure 1
    | .ei_mag_1 => pure 1
    | .ei_mag_2 => pure 1
    | .ei_mag_3 => pure 1
    | .ei_class => pure 1
    | .ei_data => pure 1
    | .ei_version => pure 1
    | .ei_osabi => pure 1
    | .ei_abiversion => pure 1
    | .ei_pad => pure 7
    | .e_type => pure 2
    | .e_machine => pure 2
    | .e_version => pure 4
    | .e_entry => do let b ← bits_32 fuel h; pure (if b then 4 else 8)
    | .e_phoff => do let b ← bits_32 fuel h; pure (if b then 4 else 8)
    | .e_shoff => do let b ← bits_32 fuel h; pure (if b then 4 else 8)
    | .e_flags => pure 4
    | .e_ehsize => pure 2
    | .e_phentsize => pure 2
    | .e_phnum => pure 2
    | .e_shentsize => pure 2
    | .e_shnum => pure 2
    | .e_shstrndx => pure 2

/-- The member `File_Header::bit_class`. -/
def bit_class : Nat → File_Header → Except Fault Class
  | 0, _ => .error .out_of_fuel
  | fuel + 1, h => do
    let val : Class := ⟨static_cast_int (← read fuel h .ei_class)⟩
    if val = Class.bits_32 ∨ val = Class.bits_64 ∨ val = Class.Unknown then pure val
    else pure Class.Unknown

/-- The member `File_Header::multibyte_data`. -/
def multibyte_data : Nat → File_Header → Except Fault Data
  | 0, _ => .error .out_of_fuel
  | fuel + 1, h => do
    let val : Data := ⟨static_cast_int (← read fuel h .ei_data)⟩
    if val = Data.little_endian ∨ val = Data.big_endian ∨ val = Data.Unknown then pure val
    else pure Data.Unknown

/-- The member `File_Header::little_endian`. In the default case the argument
of `assert` is a string literal, and no `return` follows. -/
def little_endian : Nat → File_Header → Except Fault Bool
  | 0, _ => .error .out_of_fuel
  | fuel + 1, h => do
    let d ← multibyte_data fuel h
    if d = Data.little_endian then pure true
    else if d = Data.big_endian then pure false
    else do
      cassert (literal_as_bool "Unknown endianness")
      throw .no_return

/-- The member `File_Header::bits_32`. In the default case the argument of
`assert` is a string literal, and no `return` follows. -/
def bits_32 : Nat → File_Header → Except Fault Bool
  | 0, _ => .error .out_of_fuel
  | fuel + 1, h => do
    let c ← bit_class fuel h
    if c = Class.bits_32 then pure true
    else if c = Class.bits_64 then pure false
    else do
      cassert (literal_as_bool "Unknown bits")
      throw .no_return

/-- The member template `File_Header::read_loc`, with the template argument
`Bytes` as an ordinary argument. -/
def read_loc : Nat → File_Header → Nat → Nat → Except Fault Nat
  | 0, _, _, _ => .error .out_of_fuel
  | fuel + 1, h, Bytes, loc =>
    if Bytes = 1 then do
      let b ← h.checked_at loc
      pure (b % 2 ^ 8)
    else if Bytes = 2 then do
      let byte0 ← h.index loc
      let byte1 ← h.index (loc + 1)
      if (← little_endian fuel h) then
        pure ((byte0 ||| (byte1 <<< 8)) % 2 ^ 16)
      else
        pure (((byte0 <<< 8) ||| byte1) % 2 ^ 16)
    else if Bytes = 4 then do
      let byte0 ← h.index loc
      let byte1 ← h.index (loc + 1)
      let byte2 ← h.index (loc + 2)
      let byte3 ← h.index (loc + 3)
      if (← little_endian fuel h) then
        pure (byte0 ||| shl32 byte1 8 ||| shl32 byte2 16 ||| shl32 byte3 24)
      else
        pure (shl32 byte0 24 ||| shl32 byte1 16 ||| shl32 byte2 8 ||| byte3)
    else if Bytes = 8 then do
      let byte0 ← h.index loc
      let byte1 ← h.index (loc + 1)
      let byte2 ← h.index (loc + 2)
      let byte3 ← h.index (loc + 3)
      let byte4 ← h.index (loc + 4)
      let byte5 ← h.index (loc + 5)
      let byte6 ← h.index (loc + 6)
      let byte7 ← h.index (loc + 7)
      if (← little_endian fuel h) then
        pure (byte0 ||| shl64 byte1 8 ||| shl64 byte2 16 ||| shl64 byte3 24 ||| shl64 byte4 32
          ||| shl64 byte5 40 ||| shl64 byte6 48 ||| shl64 byte7 56)
      else
        pure (shl64 byte0 56 ||| shl64 byte1 48 ||| shl64 byte2 40 ||| shl64 byte3 32
          ||| shl64 byte4 24 ||| shl64 byte5 16 ||| shl64 byte6 8 ||| byte7)
    else
      .error .ill_formed

/-- The member `File_Header::read`. A size other than 1, 2, 4, 8 matches no
case of the switch, and no `return` follows the switch. -/
def read : Nat → File_Header → Fields → Except Fault Nat
  | 0, _, _ => .error .out_of_fuel
  | fuel + 1, h, field => do
    let sz ← size fuel h field
    if sz = 1 then do read_loc fuel h 1 (← offset fuel h field)
    else if sz = 2 then do read_loc fuel h 2 (← offset fuel h field)
    else if sz = 4 then do read_loc fuel h 4 (← offset fuel h field)
    else if sz = 8 then do read_loc fuel h 8 (← offset fuel h field)
    else throw .no_return

end

/-- The member `File_Header::os_abi`. -/
def os_abi (fuel : Nat) (h : File_Header) : Except Fault OSABI := do
  let val : OSABI := ⟨static_cast_int (← read fuel h .ei_osabi)⟩
  if val = OSABI.System_V ∨ val = OSABI.HP_UX ∨ val = OSABI.NetBSD ∨ val = OSABI.Linux
      ∨ val = OSABI.GNU_Hurd ∨ val = OSABI.Solaris ∨ val = OSABI.AIX ∨ val = OSABI.IRIX
      ∨ val = OSABI.FreeBSD ∨ val = OSABI.Tru64 ∨ val = OSABI.Novell_Modesto
      ∨ val = OSABI.OpenBSD ∨ val = OSABI.OpenVMS ∨ val = OSABI.NonStop_Kernel
      ∨ val = OSABI.AROS ∨ val = OSABI.Fenix_OS ∨ val = OSABI.CloudABI
      ∨ val = OSABI.Unknown then pure val
  else pure OSABI.Unknown

/-- The member `File_Header::type`. -/
def type (fuel : Nat) (h : File_Header) : Except Fault ObjectType := do
  let val : ObjectType := ⟨static_cast_int (← read fuel h .e_type)⟩
  if val = ObjectType.ET_NONE ∨ val = ObjectType.ET_REL ∨ val = ObjectType.ET_EXEC
      ∨ val = ObjectType.ET_DYN ∨ val = ObjectType.ET_CORE ∨ val = ObjectType.ET_LOOS
      ∨ val = ObjectType.ET_HIOS ∨ val = ObjectType.ET_LOPROC ∨ val = ObjectType.ET_HIPROC
      ∨ val = ObjectType.Unknown then pure val
  else pure ObjectType.Unknown

/-- The member `File_Header::machine`. -/
def machine (fuel : Nat) (h : File_Header) : Except Fault Machine := do
  let val : Machine := ⟨static_cast_int (← read fuel h .e_machine)⟩
  if val = Machine.Unknown ∨ val = Machine.SPARC ∨ val = Machine.x86 ∨ val = Machine.MIPS
      ∨ val = Machine.PowerPC ∨ val = Machine.S390 ∨ val = Machine.ARM ∨ val = Machine.SuperH
      ∨ val = Machine.IA_64 ∨ val = Machine.x86_64 ∨ val = Machine.AArch64
      ∨ val = Machine.RISC_V then pure val
  else pure Machine.Unknown

/-- The member `File_Header::entry`. -/
def entry (fuel : Nat) (h : File_Header) : Except Fault Nat :=
  read fuel h .e_entry

/-- The byte of `data` at position `n` as a number (`0` past the end of the array). -/
def byte (h : File_Header) (n : Nat) : Nat :=
  if hn : n < 64 then (h.data ⟨n, hn⟩).val else 0

/-- The file-header table of section 6 of the specification: `(offset, width)`
of each field the table lists, in the 32-bit column when `b32` is true and in
the 64-bit column otherwise; `none` for the identifiers the table leaves out. -/
def published_layout (b32 : Bool) : Fields → Option (Nat × Nat)
  | .ei_mag => some (0x00, 4)
  | .ei_mag_0 => none
  | .ei_mag_1 => none
  | .ei_mag_2 => none
  | .ei_mag_3 => none
  | .ei_class => some (0x04, 1)
  | .ei_data => some (0x05, 1)
  | .ei_version => some (0x06, 1)
  | .ei_osabi => some (0x07, 1)
  | .ei_abiversion => some (0x08, 1)
  | .ei_pad => some (0x09, 7)
  | .e_type => some (0x10, 2)
  | .e_machine => some (0x12, 2)
  | .e_version => some (0x14, 4)
  | .e_entry => some (0x18, if b32 then 4 else 8)
  | .e_phoff => some (if b32 then 0x1C else 0x20, if b32 then 4 else 8)
  | .e_shoff => some (if b32 then 0x20 else 0x28, if b32 then 4 else 8)
  | .e_flags => some (if b32 then 0x24 else 0x30, 4)
  | .e_ehsize => some (if b32 then 0x28 else 0x34, 2)
  | .e_phentsize => some (if b32 then 0x2A else 0x36, 2)
  | .e_phnum => some (if b32 then 0x2C else 0x38, 2)
  | .e_shentsize => some (if b32 then 0x2E else 0x3A, 2)
  | .e_shnum => some (if b32 then 0x30 else 0x3C, 2)
  | .e_shstrndx => some (if b32 then 0x32 else 0x3E, 2)

/-- A 64-bit little-endian header: magic, class 2, data 1, OS ABI 3,
`e_type = 2`, `e_machine = 0x3E`, `e_entry = 0x401000`, zero elsewhere. -/
def sample_le64 : File_Header :=
  ⟨fun i =>
    if i = 0x00 then 0x7F else if i = 0x01 then 0x45 else if i = 0x02 then 0x4C
    else if i = 0x03 then 0x46 else if i = 0x04 then 2 else if i = 0x05 then 1
    else if i = 0x07 then 3 else if i = 0x10 then 0x02 else if i = 0x12 then 0x3E
    else if i = 0x19 then 0x10 else if i = 0x1A then 0x40 else 0⟩

/-- A 32-bit big-endian header whose first four bytes are `78 56 34 12`,
with class 1, data 2, `e_type = 0xFEFF` and `e_machine = 0x28`, zero elsewhere. -/
def sample_be32 : File_Header :=
  ⟨fun i =>
    if i = 0x00 then 0x78 else if i = 0x01 then 0x56 else if i = 0x02 then 0x34
    else if i = 0x03 then 0x12 else if i = 0x04 then 1 else if i = 0x05 then 2
    else if i = 0x10 then 0xFE else if i = 0x11 then 0xFF else if i = 0x13 then 0x28 else 0⟩


end File_Header

/-! ## Theorems -/

/-! ### Bitwise assembly as arithmetic

The shifted bytes occupy disjoint bit ranges, so `|||` adds them. -/

theorem lor_eq_add_of_dvd (k x y : Nat) (hx : x % 2 ^ k = 0) (hy : y < 2 ^ k) :
    x ||| y = x + y := by
  obtain ⟨a, rfl⟩ : 2 ^ k ∣ x := Nat.dvd_of_mod_eq_zero hx
  exact (Nat.mul_add_lt_is_or hy a).symm

theorem lor_eq_add_of_dvd_right (k x y : Nat) (hx : x < 2 ^ k) (hy : y % 2 ^ k = 0) :
    x ||| y = x + y := by
  rw [Nat.lor_comm, lor_eq_add_of_dvd k y x hy hx, Nat.add_comm]

theorem shl32_byte (b k : Nat) (hb : b < 256) (hk : k ≤ 24) : shl32 b k = b * 2 ^ k := by
  unfold shl32
  rw [Nat.shiftLeft_eq]
  apply Nat.mod_eq_of_lt
  calc b * 2 ^ k < 256 * 2 ^ k := by
        apply Nat.mul_lt_mul_of_pos_right hb (by positivity)
    _ ≤ 256 * 2 ^ 24 := by
        apply Nat.mul_le_mul_left
        exact Nat.pow_le_pow_right (by norm_num) hk
    _ = 2 ^ 32 := by norm_num

theorem shl64_byte (b k : Nat) (hb : b < 256) (hk : k ≤ 56) : shl64 b k = b * 2 ^ k := by
  unfold shl64
  rw [Nat.shiftLeft_eq]
  apply Nat.mod_eq_of_lt
  calc b * 2 ^ k < 256 * 2 ^ k := by
        apply Nat.mul_lt_mul_of_pos_right hb (by positivity)
    _ ≤ 256 * 2 ^ 56 := by
        apply Nat.mul_le_mul_left
        exact Nat.pow_le_pow_right (by norm_num) hk
    _ = 2 ^ 64 := by norm_num

theorem le16 (b0 b1 : Nat) (h0 : b0 < 256) (h1 : b1 < 256) :
    (b0 ||| (b1 <<< 8)) % 2 ^ 16 = b0 + b1 * 256 := by
  have e1 : b0 ||| b1 * 2 ^ 8 = b0 + b1 * 2 ^ 8 :=
    lor_eq_add_of_dvd_right 8 _ _ (by omega) (by omega)
  rw [Nat.shiftLeft_eq, e1]
  omega

theorem be16 (b0 b1 : Nat) (h0 : b0 < 256) (h1 : b1 < 256) :
    ((b0 <<< 8) ||| b1) % 2 ^ 16 = b0 * 256 + b1 := by
  have e1 : b0 * 2 ^ 8 ||| b1 = b0 * 2 ^ 8 + b1 :=
    lor_eq_add_of_dvd 8 _ _ (by omega) (by omega)
  rw [Nat.shiftLeft_eq, e1]
  omega

theorem le32 (b0 b1 b2 b3 : Nat) (h0 : b0 < 256) (h1 : b1 < 256) (h2 : b2 < 256)
    (h3 : b3 < 256) :
    b0 ||| shl32 b1 8 ||| shl32 b2 16 ||| shl32 b3 24
      = b0 + b1 * 256 + b2 * 65536 + b3 * 16777216 := by
  have e1 : b0 ||| b1 * 2 ^ 8 = b0 + b1 * 2 ^ 8 :=
    lor_eq_add_of_dvd_right 8 _ _ (by omega) (by omega)
  have e2 : b0 + b1 * 2 ^ 8 ||| b2 * 2 ^ 16 = b0 + b1 * 2 ^ 8 + b2 * 2 ^ 16 :=
    lor_eq_add_of_dvd_right 16 _ _ (by omega) (by omega)
  have e3 : b0 + b1 * 2 ^ 8 + b2 * 2 ^ 16 ||| b3 * 2 ^ 24
      = b0 + b1 * 2 ^ 8 + b2 * 2 ^ 16 + b3 * 2 ^ 24 :=
    lor_eq_add_of_dvd_right 24 _ _ (by omega) (by omega)
  rw [shl32_byte b1 8 h1 (by omega), shl32_byte b2 16 h2 (by omega),
    shl32_byte b3 24 h3 (by omega), e1, e2, e3]
  norm_num

theorem be32 (b0 b1 b2 b3 : Nat) (h0 : b0 < 256) (h1 : b1 < 256) (h2 : b2 < 256)
    (h3 : b3 < 256) :
    shl32 b0 24 ||| shl32 b1 16 ||| shl32 b2 8 ||| b3
      = b0 * 16777216 + b1 * 65536 + b2 * 256 + b3 := by
  have e1 : b0 * 2 ^ 24 ||| b1 * 2 ^ 16 = b0 * 2 ^ 24 + b1 * 2 ^ 16 :=
    lor_eq_add_of_dvd 24 _ _ (by omega) (by omega)
  have e2 : b0 * 2 ^ 24 + b1 * 2 ^ 16 ||| b2 * 2 ^ 8 = b0 * 2 ^ 24 + b1 * 2 ^ 16 + b2 * 2 ^ 8 :=
    lor_eq_add_of_dvd 16 _ _ (by omega) (by omega)
  have e3 : b0 * 2 ^ 24 + b1 * 2 ^ 16 + b2 * 2 ^ 8 ||| b3
      = b0 * 2 ^ 24 + b1 * 2 ^ 16 + b2 * 2 ^ 8 + b3 :=
    lor_eq_add_of_dvd 8 _ _ (by omega) (by omega)
  rw [shl32_byte b0 24 h0 (by omega), shl32_byte b1 16 h1 (by omega),
    shl32_byte b2 8 h2 (by omega), e1, e2, e3]
  norm_num

theorem le64 (b0 b1 b2 b3 b4 b5 b6 b7 : Nat) (h0 : b0 < 256) (h1 : b1 < 256) (h2 : b2 < 256)
    (h3 : b3 < 256) (h4 : b4 < 256) (h5 : b5 < 256) (h6 : b6 < 256) (h7 : b7 < 256) :
    b0 ||| shl64 b1 8 ||| shl64 b2 16 ||| shl64 b3 24 ||| shl64 b4 32 ||| shl64 b5 40
        ||| shl64 b6 48 ||| shl64 b7 56
      = b0 + b1 * 2 ^ 8 + b2 * 2 ^ 16 + b3 * 2 ^ 24 + b4 * 2 ^ 32 + b5 * 2 ^ 40
        + b6 * 2 ^ 48 + b7 * 2 ^ 56 := by
  have e1 : b0 ||| b1 * 2 ^ 8 = b0 + b1 * 2 ^ 8 :=
    lor_eq_add_of_dvd_right 8 _ _ (by omega) (by omega)
  have e2 : b0 + b1 * 2 ^ 8 ||| b2 * 2 ^ 16 = b0 + b1 * 2 ^ 8 + b2 * 2 ^ 16 :=
    lor_eq_add_of_dvd_right 16 _ _ (by omega) (by omega)
  have e3 : b0 + b1 * 2 ^ 8 + b2 * 2 ^ 16 ||| b3 * 2 ^ 24
      = b0 + b1 * 2 ^ 8 + b2 * 2 ^ 16 + b3 * 2 ^ 24 :=
    lor_eq_add_of_dvd_right 24 _ _ (by omega) (by omega)
  have e4 : b0 + b1 * 2 ^ 8 + b2 * 2 ^ 16 + b3 * 2 ^ 24 ||| b4 * 2 ^ 32
      = b0 + b1 * 2 ^ 8 + b2 * 2 ^ 16 + b3 * 2 ^ 24 + b4 * 2 ^ 32 :=
    lor_eq_add_of_dvd_right 32 _ _ (by omega) (by omega)
  have e5 : b0 + b1 * 2 ^ 8 + b2 * 2 ^ 16 + b3 * 2 ^ 24 + b4 * 2 ^ 32 ||| b5 * 2 ^ 40
      = b0 + b1 * 2 ^ 8 + b2 * 2 ^ 16 + b3 * 2 ^ 24 + b4 * 2 ^ 32 + b5 * 2 ^ 40 :=
    lor_eq_add_of_dvd_right 40 _ _ (by omega) (by omega)
  have e6 : b0 + b1 * 2 ^ 8 + b2 * 2 ^ 16 + b3 * 2 ^ 24 + b4 * 2 ^ 32 + b5 * 2 ^ 40
        ||| b6 * 2 ^ 48
      = b0 + b1 * 2 ^ 8 + b2 * 2 ^ 16 + b3 * 2 ^ 24 + b4 * 2 ^ 32 + b5 * 2 ^ 40
        + b6 * 2 ^ 48 :=
    lor_eq_add_of_dvd_right 48 _ _ (by omega) (by omega)
  have e7 : b0 + b1 * 2 ^ 8 + b2 * 2 ^ 16 + b3 * 2 ^ 24 + b4 * 2 ^ 32 + b5 * 2 ^ 40
        + b6 * 2 ^ 48 ||| b7 * 2 ^ 56
      = b0 + b1 * 2 ^ 8 + b2 * 2 ^ 16 + b3 * 2 ^ 24 + b4 * 2 ^ 32 + b5 * 2 ^ 40
        + b6 * 2 ^ 48 + b7 * 2 ^ 56 :=
    lor_eq_add_of_dvd_right 56 _ _ (by omega) (by omega)
  rw [shl64_byte b1 8 h1 (by omega), shl64_byte b2 16 h2 (by omega),
    shl64_byte b3 24 h3 (by omega), shl64_byte b4 32 h4 (by omega),
    shl64_byte b5 40 h5 (by omega), shl64_byte b6 48 h6 (by omega),
    shl64_byte b7 56 h7 (by omega), e1, e2, e3, e4, e5, e6, e7]

theorem be64 (b0 b1 b2 b3 b4 b5 b6 b7 : Nat) (h0 : b0 < 256) (h1 : b1 < 256) (h2 : b2 < 256)
    (h3 : b3 < 256) (h4 : b4 < 256) (h5 : b5 < 256) (h6 : b6 < 256) (h7 : b7 < 256) :
    shl64 b0 56 ||| shl64 b1 48 ||| shl64 b2 40 ||| shl64 b3 32 ||| shl64 b4 24 ||| shl64 b5 16
        ||| shl64 b6 8 ||| b7
      = b0 * 2 ^ 56 + b1 * 2 ^ 48 + b2 * 2 ^ 40 + b3 * 2 ^ 32 + b4 * 2 ^ 24 + b5 * 2 ^ 16
        + b6 * 2 ^ 8 + b7 := by
  have e1 : b0 * 2 ^ 56 ||| b1 * 2 ^ 48 = b0 * 2 ^ 56 + b1 * 2 ^ 48 :=
    lor_eq_add_of_dvd 56 _ _ (by omega) (by omega)
  have e2 : b0 * 2 ^ 56 + b1 * 2 ^ 48 ||| b2 * 2 ^ 40
      = b0 * 2 ^ 56 + b1 * 2 ^ 48 + b2 * 2 ^ 40 :=
    lor_eq_add_of_dvd 48 _ _ (by omega) (by omega)
  have e3 : b0 * 2 ^ 56 + b1 * 2 ^ 48 + b2 * 2 ^ 40 ||| b3 * 2 ^ 32
      = b0 * 2 ^ 56 + b1 * 2 ^ 48 + b2 * 2 ^ 40 + b3 * 2 ^ 32 :=
    lor_eq_add_of_dvd 40 _ _ (by omega) (by omega)
  have e4 : b0 * 2 ^ 56 + b1 * 2 ^ 48 + b2 * 2 ^ 40 + b3 * 2 ^ 32 ||| b4 * 2 ^ 24
      = b0 * 2 ^ 56 + b1 * 2 ^ 48 + b2 * 2 ^ 40 + b3 * 2 ^ 32 + b4 * 2 ^ 24 :=
    lor_eq_add_of_dvd 32 _ _ (by omega) (by omega)
  have e5 : b0 * 2 ^ 56 + b1 * 2 ^ 48 + b2 * 2 ^ 40 + b3 * 2 ^ 32 + b4 * 2 ^ 24 ||| b5 * 2 ^ 16
      = b0 * 2 ^ 56 + b1 * 2 ^ 48 + b2 * 2 ^ 40 + b3 * 2 ^ 32 + b4 * 2 ^ 24 + b5 * 2 ^ 16 :=
    lor_eq_add_of_dvd 24 _ _ (by omega) (by omega)
  have e6 : b0 * 2 ^ 56 + b1 * 2 ^ 48 + b2 * 2 ^ 40 + b3 * 2 ^ 32 + b4 * 2 ^ 24 + b5 * 2 ^ 16
        ||| b6 * 2 ^ 8
      = b0 * 2 ^ 56 + b1 * 2 ^ 48 + b2 * 2 ^ 40 + b3 * 2 ^ 32 + b4 * 2 ^ 24 + b5 * 2 ^ 16
        + b6 * 2 ^ 8 :=
    lor_eq_add_of_dvd 16 _ _ (by omega) (by omega)
  have e7 : b0 * 2 ^ 56 + b1 * 2 ^ 48 + b2 * 2 ^ 40 + b3 * 2 ^ 32 + b4 * 2 ^ 24 + b5 * 2 ^ 16
        + b6 * 2 ^ 8 ||| b7
      = b0 * 2 ^ 56 + b1 * 2 ^ 48 + b2 * 2 ^ 40 + b3 * 2 ^ 32 + b4 * 2 ^ 24 + b5 * 2 ^ 16
        + b6 * 2 ^ 8 + b7 :=
    lor_eq_add_of_dvd 8 _ _ (by omega) (by omega)
  rw [shl64_byte b0 56 h0 (by omega), shl64_byte b1 48 h1 (by omega),
    shl64_byte b2 40 h2 (by omega), shl64_byte b3 32 h3 (by omega),
    shl64_byte b4 24 h4 (by omega), shl64_byte b5 16 h5 (by omega),
    shl64_byte b6 8 h6 (by omega), e1, e2, e3, e4, e5, e6, e7]

/-! ### The accessors of the identification bytes -/
namespace File_Header

theorem byte_lt (h : File_Header) (n : Nat) : h.byte n < 256 := by
  unfold byte
  split
  · exact (h.data _).isLt
  · omega

theorem index_eq (h : File_Header) (loc : Nat) (hl : loc < 64) :
    h.index loc = .ok (h.byte loc) := by
  simp [index, byte, hl]

theorem checked_at_eq (h : File_Header) (loc : Nat) (hl : loc < 64) :
    h.checked_at loc = .ok (h.byte loc) := by
  simp [checked_at, byte, hl]

theorem read_loc_one (n : Nat) (h : File_Header) (loc : Nat) (hl : loc < 64) :
    read_loc (n + 1) h 1 loc = .ok (h.byte loc) := by
  have := h.byte_lt loc
  simp [read_loc, checked_at_eq h loc hl, bind, Except.bind, pure, Except.pure]
  omega

theorem read_ei_class (n : Nat) (h : File_Header) :
    read (n + 2) h .ei_class = .ok (h.byte 4) := by
  simp [read, size, offset, read_loc_one, bind, Except.bind, pure, Except.pure]

theorem read_ei_data (n : Nat) (h : File_Header) :
    read (n + 2) h .ei_data = .ok (h.byte 5) := by
  simp [read, size, offset, read_loc_one, bind, Except.bind, pure, Except.pure]

theorem read_ei_osabi (n : Nat) (h : File_Header) :
    read (n + 2) h .ei_osabi = .ok (h.byte 7) := by
  simp [read, size, offset, read_loc_one, bind, Except.bind, pure, Except.pure]

theorem static_cast_int_small (v : Nat) (hv : v < 2 ^ 31) : static_cast_int v = (v : Int) := by
  unfold static_cast_int
  have : v % 2 ^ 32 = v := Nat.mod_eq_of_lt (by omega)
  rw [this, if_pos hv]

theorem bit_class_eq (n : Nat) (h : File_Header) :
    bit_class (n + 3) h = .ok (if h.byte 4 = 1 then Class.bits_32
      else if h.byte 4 = 2 then Class.bits_64 else Class.Unknown) := by
  have hb := h.byte_lt 4
  simp only [bit_class, read_ei_class]
  simp only [bind, Except.bind, pure, Except.pure, static_cast_int_small _ (show h.byte 4 < 2 ^ 31 by omega),
    Class.bits_32, Class.bits_64, Class.Unknown, Class.mk.injEq]
  split_ifs <;> simp_all
  omega

theorem multibyte_data_eq (n : Nat) (h : File_Header) :
    multibyte_data (n + 3) h = .ok (if h.byte 5 = 1 then Data.little_endian
      else if h.byte 5 = 2 then Data.big_endian else Data.Unknown) := by
  have hb := h.byte_lt 5
  simp only [multibyte_data, read_ei_data]
  simp only [bind, Except.bind, pure, Except.pure, static_cast_int_small _ (show h.byte 5 < 2 ^ 31 by omega),
    Data.little_endian, Data.big_endian, Data.Unknown, Data.mk.injEq]
  split_ifs <;> simp_all
  omega

theorem little_endian_eq (n : Nat) (h : File_Header) :
    little_endian (n + 4) h = if h.byte 5 = 1 then .ok true
      else if h.byte 5 = 2 then .ok false else .error .no_return := by
  simp only [little_endian, multibyte_data_eq]
  simp only [bind, Except.bind, pure, Except.pure, cassert, literal_as_bool, throw, throwThe,
    MonadExceptOf.throw, Data.little_endian, Data.big_endian, Data.Unknown]
  split_ifs <;> simp_all

theorem bits_32_eq (n : Nat) (h : File_Header) :
    bits_32 (n + 4) h = if h.byte 4 = 1 then .ok true
      else if h.byte 4 = 2 then .ok false else .error .no_return := by
  simp only [bits_32, bit_class_eq]
  simp only [bind, Except.bind, pure, Except.pure, cassert, literal_as_bool, throw, throwThe,
    MonadExceptOf.throw, Class.bits_32, Class.bits_64, Class.Unknown]
  split_ifs <;> simp_all

end File_Header

/-! ### Multi-byte reads -/
namespace File_Header

theorem read_loc_two (n : Nat) (h : File_Header) (loc : Nat) (hl : loc + 2 ≤ 64) :
    read_loc (n + 5) h 2 loc = if h.byte 5 = 1 then .ok (h.byte loc + h.byte (loc + 1) * 256)
      else if h.byte 5 = 2 then .ok (h.byte loc * 256 + h.byte (loc + 1))
      else .error .no_return := by
  have h0 := h.byte_lt loc
  have h1 := h.byte_lt (loc + 1)
  simp only [read_loc, index_eq h loc (by omega), index_eq h (loc + 1) (by omega),
    little_endian_eq]
  simp only [bind, Except.bind, pure, Except.pure]
  have el := le16 _ _ h0 h1
  have eb := be16 _ _ h0 h1
  split_ifs <;> simp_all

theorem read_loc_four (n : Nat) (h : File_Header) (loc : Nat) (hl : loc + 4 ≤ 64) :
    read_loc (n + 5) h 4 loc =
      if h.byte 5 = 1 then
        .ok (h.byte loc + h.byte (loc + 1) * 256 + h.byte (loc + 2) * 65536
          + h.byte (loc + 3) * 16777216)
      else if h.byte 5 = 2 then
        .ok (h.byte loc * 16777216 + h.byte (loc + 1) * 65536 + h.byte (loc + 2) * 256
          + h.byte (loc + 3))
      else .error .no_return := by
  have h0 := h.byte_lt loc
  have h1 := h.byte_lt (loc + 1)
  have h2 := h.byte_lt (loc + 2)
  have h3 := h.byte_lt (loc + 3)
  simp only [read_loc, index_eq h loc (by omega), index_eq h (loc + 1) (by omega),
    index_eq h (loc + 2) (by omega), index_eq h (loc + 3) (by omega), little_endian_eq]
  simp only [bind, Except.bind, pure, Except.pure]
  have el := le32 _ _ _ _ h0 h1 h2 h3
  have eb := be32 _ _ _ _ h0 h1 h2 h3
  split_ifs <;> simp_all

theorem read_loc_eight (n : Nat) (h : File_Header) (loc : Nat) (hl : loc + 8 ≤ 64) :
    read_loc (n + 5) h 8 loc =
      if h.byte 5 = 1 then
        .ok (h.byte loc + h.byte (loc + 1) * 2 ^ 8 + h.byte (loc + 2) * 2 ^ 16
          + h.byte (loc + 3) * 2 ^ 24 + h.byte (loc + 4) * 2 ^ 32 + h.byte (loc + 5) * 2 ^ 40
          + h.byte (loc + 6) * 2 ^ 48 + h.byte (loc + 7) * 2 ^ 56)
      else if h.byte 5 = 2 then
        .ok (h.byte loc * 2 ^ 56 + h.byte (loc + 1) * 2 ^ 48 + h.byte (loc + 2) * 2 ^ 40
          + h.byte (loc + 3) * 2 ^ 32 + h.byte (loc + 4) * 2 ^ 24 + h.byte (loc + 5) * 2 ^ 16
          + h.byte (loc + 6) * 2 ^ 8 + h.byte (loc + 7))
      else .error .no_return := by
  have h0 := h.byte_lt loc
  have h1 := h.byte_lt (loc + 1)
  have h2 := h.byte_lt (loc + 2)
  have h3 := h.byte_lt (loc + 3)
  have h4 := h.byte_lt (loc + 4)
  have h5 := h.byte_lt (loc + 5)
  have h6 := h.byte_lt (loc + 6)
  have h7 := h.byte_lt (loc + 7)
  simp only [read_loc, index_eq h loc (by omega), index_eq h (loc + 1) (by omega),
    index_eq h (loc + 2) (by omega), index_eq h (loc + 3) (by omega),
    index_eq h (loc + 4) (by omega), index_eq h (loc + 5) (by omega),
    index_eq h (loc + 6) (by omega), index_eq h (loc + 7) (by omega), little_endian_eq]
  simp only [bind, Except.bind, pure, Except.pure]
  have el := le64 _ _ _ _ _ _ _ _ h0 h1 h2 h3 h4 h5 h6 h7
  have eb := be64 _ _ _ _ _ _ _ _ h0 h1 h2 h3 h4 h5 h6 h7
  split_ifs <;> simp_all

end File_Header

/-! ### Byte assembly of read_loc -/
namespace File_Header

theorem byte_eq_val (h : File_Header) (i : Fin 64) : h.byte i.val = (h.data i).val := by
  simp [byte]

theorem data_eq_iff (h : File_Header) (i : Fin 64) (c : Fin 256) :
    h.data i = c ↔ h.byte i.val = c.val := by
  rw [byte_eq_val, Fin.ext_iff]

/-- C1: for a buffer whose data-encoding byte is 1 or 2, a width in {1,2,4,8}
and a location with `loc + w ≤ 64`, `read_loc` returns the little-endian sum
of the bytes when the encoding byte is 1 and the big-endian sum when it is 2;
the bytes `78 56 34 12` read as `0x12345678` and `0x78563412`. -/
theorem read_loc_assembles_bytes (fuel : Nat) (h : File_Header) (w loc : Nat)
    (hfuel : 5 ≤ fuel) (hdata : h.data 5 = 1 ∨ h.data 5 = 2)
    (hw : w = 1 ∨ w = 2 ∨ w = 4 ∨ w = 8) (hloc : loc + w ≤ 64) :
    read_loc fuel h w loc
        = .ok (if h.data 5 = 1 then ∑ i ∈ Finset.range w, h.byte (loc + i) * 256 ^ i
            else ∑ i ∈ Finset.range w, h.byte (loc + i) * 256 ^ (w - 1 - i))
      ∧ (w = 4 → h.byte loc = 0x78 → h.byte (loc + 1) = 0x56 → h.byte (loc + 2) = 0x34 →
          h.byte (loc + 3) = 0x12 →
          read_loc fuel h w loc = .ok (if h.data 5 = 1 then 0x12345678 else 0x78563412)) := by
  obtain ⟨n, rfl⟩ : ∃ n, fuel = n + 5 := ⟨fuel - 5, by omega⟩
  have h1 : h.data 5 = 1 ↔ h.byte 5 = 1 := data_eq_iff h 5 1
  have h2 : h.data 5 = 2 ↔ h.byte 5 = 2 := data_eq_iff h 5 2
  rw [h1, h2] at hdata
  simp only [h1]
  rcases hw with rfl | rfl | rfl | rfl
  · refine ⟨?_, by omega⟩
    rw [read_loc_one (n + 4) h loc (by omega)]
    simp
  · refine ⟨?_, by omega⟩
    rw [read_loc_two n h loc hloc]
    rcases hdata with hd | hd <;> simp [hd, Finset.sum_range_succ]
  · rw [read_loc_four n h loc hloc]
    constructor
    · rcases hdata with hd | hd <;> simp [hd, Finset.sum_range_succ]
    · intro _ e0 e1 e2 e3
      rcases hdata with hd | hd <;> simp [hd, e0, e1, e2, e3]
  · refine ⟨?_, by omega⟩
    rw [read_loc_eight n h loc hloc]
    rcases hdata with hd | hd <;> simp [hd, Finset.sum_range_succ]

/-- Witness of `read_loc_assembles_bytes`: the eight bytes of `e_entry` of a
little-endian buffer read as `0x401000`, and the first four bytes
`78 56 34 12` of a big-endian buffer read as `0x78563412`. -/
theorem read_loc_assembles_bytes_witness :
    read_loc 5 sample_le64 8 0x18 = .ok 0x401000
      ∧ read_loc 5 sample_be32 4 0 = .ok 0x78563412 :=
  ⟨((read_loc_assembles_bytes 5 sample_le64 8 0x18 (by decide) (by decide) (by decide)
      (by decide)).1).trans (by decide),
    ((read_loc_assembles_bytes 5 sample_be32 4 0 (by decide) (by decide) (by decide)
      (by decide)).2 rfl (by decide) (by decide) (by decide) (by decide)).trans (by decide)⟩

end File_Header

/-! ### Field layout -/
namespace File_Header

/-- C2: for a buffer whose class byte is 1 or 2, `offset` and `size` return the
offset and the width that the file-header table of the specification gives
for the field, in the column of that class. -/
theorem file_layout_matches_published (fuel : Nat) (h : File_Header) (field : Fields)
    (o w : Nat) (hfuel : 5 ≤ fuel) (hclass : h.data 4 = 1 ∨ h.data 4 = 2)
    (hpub : published_layout (decide (h.data 4 = 1)) field = some (o, w)) :
    offset fuel h field = .ok o ∧ size fuel h field = .ok w := by
  obtain ⟨n, rfl⟩ : ∃ n, fuel = n + 5 := ⟨fuel - 5, by omega⟩
  have h1 : h.data 4 = 1 ↔ h.byte 4 = 1 := data_eq_iff h 4 1
  have h2 : h.data 4 = 2 ↔ h.byte 4 = 2 := data_eq_iff h 4 2
  rw [h1, h2] at hclass
  simp only [h1] at hpub
  rcases hclass with hc | hc <;> cases field <;>
    simp [published_layout, hc] at hpub <;>
    obtain ⟨rfl, rfl⟩ := hpub <;>
    simp [offset, size, bits_32_eq, hc, bind, Except.bind, pure, Except.pure]

/-- Witness of `file_layout_matches_published`: `e_shoff` of a 64-bit
header is at `0x28` and is 8 bytes wide. -/
theorem file_layout_matches_published_witness :
    offset 5 sample_le64 .e_shoff = .ok 0x28 ∧ size 5 sample_le64 .e_shoff = .ok 8 :=
  file_layout_matches_published 5 sample_le64 .e_shoff 0x28 8 (by decide) (by decide)
    (by decide)

end File_Header

namespace Section_Header

/-- C3: for every field and both values of `bits_32`, `offset` and `size`
return the offset and the width that the section-header table of the
specification gives for the field. -/
theorem section_layout_matches_published (s : Section_Header) (field : Fields) :
    (s.offset field, s.size field) = published_layout s.bits_32 field := by
  cases field <;> simp [offset, size, published_layout]

end Section_Header

/-! ### Magic number, class and data encoding -/
namespace File_Header

/-- C4: `is_elf_file` returns true exactly when the first four bytes are
`7F 45 4C 46` and false otherwise, and two buffers that agree on their first
four bytes get the same answer. -/
theorem is_elf_file_iff_magic (h : File_Header) :
    is_elf_file h = .ok (decide (h.data 0 = 0x7F ∧ h.data 1 = 0x45 ∧ h.data 2 = 0x4C
        ∧ h.data 3 = 0x46))
      ∧ ∀ h2 : File_Header, (∀ i : Fin 64, i.val < 4 → h2.data i = h.data i) →
          is_elf_file h2 = is_elf_file h := by
  have key : ∀ g : File_Header, is_elf_file g
      = .ok (decide (g.data 0 = 0x7F ∧ g.data 1 = 0x45 ∧ g.data 2 = 0x4C ∧ g.data 3 = 0x46)) := by
    intro g
    have e0 : g.data 0 = 0x7F ↔ g.byte 0 = 0x7F := data_eq_iff g 0 0x7F
    have e1 : g.data 1 = 0x45 ↔ g.byte 1 = 0x45 := data_eq_iff g 1 0x45
    have e2 : g.data 2 = 0x4C ↔ g.byte 2 = 0x4C := data_eq_iff g 2 0x4C
    have e3 : g.data 3 = 0x46 ↔ g.byte 3 = 0x46 := data_eq_iff g 3 0x46
    simp only [e0, e1, e2, e3, is_elf_file, equal, index_eq g 0 (by omega),
      index_eq g 1 (by omega), index_eq g 2 (by omega), index_eq g 3 (by omega),
      bind, Except.bind, pure, Except.pure]
    by_cases c0 : g.byte 0 = 0x7F <;> by_cases c1 : g.byte 1 = 0x45 <;>
      by_cases c2 : g.byte 2 = 0x4C <;> by_cases c3 : g.byte 3 = 0x46 <;>
      simp [c0, c1, c2, c3] <;> omega
  refine ⟨key h, ?_⟩
  intro h2 hagree
  rw [key h, key h2, hagree 0 (by decide), hagree 1 (by decide), hagree 2 (by decide),
    hagree 3 (by decide)]

/-- Witness of `is_elf_file_iff_magic`: a buffer that starts with the magic
number is recognised. -/
theorem is_elf_file_iff_magic_witness : is_elf_file sample_le64 = .ok true :=
  (is_elf_file_iff_magic sample_le64).1.trans (by decide)

/-- C5: `bit_class` returns `bits_32` when the byte at offset 4 is 1,
`bits_64` when it is 2 and `Unknown` for every other value, and depends on no
other byte of the buffer. -/
theorem bit_class_total (fuel : Nat) (h : File_Header) (hfuel : 3 ≤ fuel) :
    bit_class fuel h = .ok (if h.data 4 = 1 then Class.bits_32
        else if h.data 4 = 2 then Class.bits_64 else Class.Unknown)
      ∧ ∀ h2 : File_Header, h2.data 4 = h.data 4 → bit_class fuel h2 = bit_class fuel h := by
  obtain ⟨n, rfl⟩ : ∃ n, fuel = n + 3 := ⟨fuel - 3, by omega⟩
  have key : ∀ g : File_Header, bit_class (n + 3) g = .ok (if g.data 4 = 1 then Class.bits_32
      else if g.data 4 = 2 then Class.bits_64 else Class.Unknown) := by
    intro g
    have e1 : g.data 4 = 1 ↔ g.byte 4 = 1 := data_eq_iff g 4 1
    have e2 : g.data 4 = 2 ↔ g.byte 4 = 2 := data_eq_iff g 4 2
    simp only [bit_class_eq, e1, e2]
  refine ⟨key h, ?_⟩
  intro h2 hagree
  rw [key h, key h2, hagree]

/-- Witness of `bit_class_total`: class byte 2 is the 64-bit class. -/
theorem bit_class_total_witness : bit_class 3 sample_le64 = .ok Class.bits_64 :=
  (bit_class_total 3 sample_le64 (by decide)).1.trans (by decide)

/-- C6: `multibyte_data` returns `little_endian` when the byte at offset 5 is
1, `big_endian` when it is 2 and `Unknown` for every other value, and depends
on no other byte of the buffer. -/
theorem multibyte_data_total (fuel : Nat) (h : File_Header) (hfuel : 3 ≤ fuel) :
    multibyte_data fuel h = .ok (if h.data 5 = 1 then Data.little_endian
        else if h.data 5 = 2 then Data.big_endian else Data.Unknown)
      ∧ ∀ h2 : File_Header, h2.data 5 = h.data 5 →
          multibyte_data fuel h2 = multibyte_data fuel h := by
  obtain ⟨n, rfl⟩ : ∃ n, fuel = n + 3 := ⟨fuel - 3, by omega⟩
  have key : ∀ g : File_Header, multibyte_data (n + 3) g
      = .ok (if g.data 5 = 1 then Data.little_endian
        else if g.data 5 = 2 then Data.big_endian else Data.Unknown) := by
    intro g
    have e1 : g.data 5 = 1 ↔ g.byte 5 = 1 := data_eq_iff g 5 1
    have e2 : g.data 5 = 2 ↔ g.byte 5 = 2 := data_eq_iff g 5 2
    simp only [multibyte_data_eq, e1, e2]
  refine ⟨key h, ?_⟩
  intro h2 hagree
  rw [key h, key h2, hagree]

/-- Witness of `multibyte_data_total`: data byte 2 is big-endian. -/
theorem multibyte_data_total_witness : multibyte_data 3 sample_be32 = .ok Data.big_endian :=
  (multibyte_data_total 3 sample_be32 (by decide)).1.trans (by decide)

end File_Header

end arm_thing.ELF
